import Mathlib

/-!
Verification of the taroko_server contact routes.

Shallow embedding of `src/routes/contacts.js`: a REST contact manager backed
by a key-value store (a redis client whose module `src/lib/redis` is not part
of the sources; its operations are modelled from the spec, see the
`Modelled from the spec:` doc comments).

JavaScript values are modelled as follows: a contact object becomes the
structure `Contact` (a JSON field that is `undefined`/absent becomes `none`);
the key-value store becomes an association list from numeric keys to stored
values; a stored value is either a contact object (truthy in JS) or an
empty/falsy value (`StoreVal.empty`), so that the `if (!contact)` checks of
the handlers can be stated faithfully.
-/

namespace Taroko

/-- A contact record `{id, first_name, last_name, job, description}` as built
by the POST handler.  The four text fields are optional: `none` models a JSON
field that is absent/`undefined`. -/
structure Contact where
  id : Nat
  first_name : Option String
  last_name : Option String
  job : Option String
  description : Option String
deriving Repr, DecidableEq

/-- A value held by the store under a contact key: either a contact object
(truthy in JS) or an empty/falsy value.  The handlers' `if (!contact)`
tests distinguish only truthy from falsy, so this is the boundary the
embedding must keep. -/
inductive StoreVal where
  | obj (c : Contact)
  | empty
deriving Repr, DecidableEq

/-- JS truthiness of a stored value: an object is truthy, the empty value is
falsy. -/
def StoreVal.truthy : StoreVal → Bool
  | .obj _ => true
  | .empty => false

/-- The key-value store, as an association list from (numeric) contact keys
to stored values.  Real store keys are unique; uniqueness is carried as a
hypothesis (`keysNodup`) where a proof needs it. -/
abbrev Store := List (Nat × StoreVal)

/-- The keys of the store are pairwise distinct (true of any real key-value
store, and preserved by all the operations below). -/
def keysNodup (s : Store) : Prop := (s.map Prod.fst).Nodup

instance : DecidablePred keysNodup := fun s =>
  inferInstanceAs (Decidable ((s.map Prod.fst).Nodup))

/-- Modelled from the spec: `GET(key) → value or absent` — the store lookup
behind `redis.getContact`.  Returns the value bound to the first occurrence
of the key, or `none` when the key is absent. -/
def getContact : Store → Nat → Option StoreVal
  | [], _ => none
  | (k, v) :: rest, i => if k = i then some v else getContact rest i

/-- Modelled from the spec: `SET(key, value)` (unconditional upsert) — the
store write behind `redis.addContact`.  Replaces the binding of the key if
present, otherwise appends a new binding. -/
def addContact : Store → Nat → StoreVal → Store
  | [], i, v => [(i, v)]
  | (k, w) :: rest, i, v =>
      if k = i then (i, v) :: rest else (k, w) :: addContact rest i v

/-- Modelled from the spec: `DELETE(key) → removed value or absent` — the
store removal behind `redis.deleteContact`.  Removes the first binding of the
key and returns its value, or returns `none` leaving the store unchanged when
the key is absent. -/
def deleteContact : Store → Nat → Option StoreVal × Store
  | [], _ => (none, [])
  | (k, v) :: rest, i =>
      if k = i then (some v, rest)
      else
        let r := deleteContact rest i
        (r.1, (k, v) :: r.2)

/-- Modelled from the spec: `KEYS()` over the contact namespace — the
enumeration behind `redis.getIds`.  Returns every key currently present, in
no guaranteed order (here: the order of the association list). -/
def getIds (s : Store) : List Nat := s.map Prod.fst

/-- Modelled from the spec: `allocateId()` via the store's atomic increment
(`redis.getNextId`): durably advances the persisted counter and returns the
new value, so the returned id is `counter + 1` and the persisted counter
becomes `counter + 1`.  Result: `(returned id, new counter)`. -/
def getNextId (counter : Nat) : Nat × Nat := (counter + 1, counter + 1)

/-- The full server-side state: the key-value store plus the persisted id
counter (kept in the store under a reserved non-numeric key in the real
system; modelled as a separate component since that key can never collide
with a contact key). -/
structure ServerState where
  store : Store
  counter : Nat
deriving DecidableEq

/-! ## JS default sort

`Array.prototype.sort()` with no comparator converts elements to strings and
compares them lexicographically by code units.  For the natural-number ids at
hand this is lexicographic comparison of decimal digit strings. -/

/-- Structural (fuel-indexed) computation of the decimal digits of a natural
number, most significant first.  Fuel `n + 1` always suffices since
`n / 10 < n` for `n ≥ 10`. -/
def decDigitsAux : Nat → Nat → List Nat
  | 0, _ => []
  | fuel + 1, n => if n < 10 then [n] else decDigitsAux fuel (n / 10) ++ [n % 10]

/-- The decimal digits of a natural number, most significant first
(the digit string JS produces when converting the number to a string). -/
def decDigits (n : Nat) : List Nat := decDigitsAux (n + 1) n

/-- Lexicographic comparison of digit strings (code-unit comparison of the
decimal string forms, as JS's default sort comparator performs). -/
def lexLe : List Nat → List Nat → Bool
  | [], _ => true
  | _ :: _, [] => false
  | a :: as, b :: bs => if a < b then true else if b < a then false else lexLe as bs

/-- The JS default comparator on numbers: compare their decimal string
forms lexicographically. -/
def jsLe (a b : Nat) : Bool := lexLe (decDigits a) (decDigits b)

/-- Ordered insertion with respect to the JS default comparator. -/
def jsInsert (a : Nat) : List Nat → List Nat
  | [] => [a]
  | b :: bs => if jsLe a b then a :: b :: bs else b :: jsInsert a bs

/-- The JS `ids.sort()` call: sort by the default (string) comparator.  `jsLe` is a
total order and store keys are pairwise distinct, so the sorted result is the
unique `jsLe`-ordered permutation — independent of the sorting algorithm;
insertion sort keeps the model structurally recursive. -/
def jsSort : List Nat → List Nat
  | [] => []
  | a :: as => jsInsert a (jsSort as)

/-! ## Request/response shapes -/

/-- The `data` field of the uniform response envelope: a single contact
object, an array (as produced by the listing handler), or the empty object
used on 404. -/
inductive RespData where
  | obj (c : Contact)
  | arr (cs : List (Option StoreVal))
  | emptyObj
deriving Repr, DecidableEq

/-- The uniform response envelope `statusCode, message, data`. -/
structure Response where
  statusCode : Nat
  message : String
  data : RespData
deriving Repr, DecidableEq

/-- The request body of POST /contacts (`req.body.contact`).  Besides the
four text fields the client may send an `id` and arbitrary extra fields; the
handler reads only the four text fields, so the embedding records the others
to state that they are ignored. -/
structure CreateBody where
  id : Option Nat
  first_name : Option String
  last_name : Option String
  job : Option String
  description : Option String
  extra : List (String × String)
deriving Repr, DecidableEq

/-- The request body of PATCH /contacts/:id (`req.body.info`): a partial
contact.  `none` models a field absent from the patch object; a field that is
present carries its new value.  The client may also send `id`. -/
structure Patch where
  id : Option Nat
  first_name : Option String
  last_name : Option String
  job : Option String
  description : Option String
deriving Repr, DecidableEq

/-- The empty patch (a patch with no fields present). -/
def Patch.emptyPatch : Patch :=
  { id := none, first_name := none, last_name := none, job := none, description := none }

/-- The JS object spread of `info` over `contact`: every field present in
`info` overwrites the corresponding field of `contact`; fields absent from
`info` keep their value from `contact`. -/
def mergeContact (c : Contact) (p : Patch) : Contact :=
  { id := p.id.getD c.id
  , first_name := match p.first_name with | some v => some v | none => c.first_name
  , last_name := match p.last_name with | some v => some v | none => c.last_name
  , job := match p.job with | some v => some v | none => c.job
  , description := match p.description with | some v => some v | none => c.description }

/-! ## Route handlers (translated from src/routes/contacts.js) -/

/-- The 404 envelope common to all not-found paths. -/
def notFoundResp : Response :=
  { statusCode := 404, message := "Contact not found", data := .emptyObj }

/-- GET /contacts (lines 38-49): enumerate the keys, `parseInt` each
(identity on the numeric keys of the model), sort with the DEFAULT comparator
(`.sort()` with no argument — string comparison), and fetch each id. -/
def handleList (s : Store) : Response :=
  let ids := jsSort (getIds s)
  let contacts := ids.map (fun id => getContact s id)
  { statusCode := 200
  , message := "Successfully retrieved the contacts list"
  , data := .arr contacts }

/-- Helper: the single-value `data` payload (`data: contact`), where the
fetched value is a raw stored value. -/
def RespData.arrOne (v : StoreVal) : RespData :=
  match v with
  | .obj c => .obj c
  | .empty => .emptyObj

/-- GET /contacts/:id (lines 102-110): fetch, 404 if `!contact` (falsy:
absent key or empty stored value), else 200 with the value. -/
def handleGet (s : Store) (i : Nat) : Response :=
  match getContact s i with
  | none => notFoundResp
  | some v =>
      if v.truthy then
        { statusCode := 200, message := "Contact successfully retrieved", data := .arrOne v }
      else notFoundResp

/-- POST /contacts (lines 156-171): allocate an id via `redis.getNextId`,
build the record `id, first_name, last_name, job, description` from the body
(reading ONLY the four text fields — any client-sent `id` or extra fields are
never read), persist it under the new id, answer 201 with the new record. -/
def handlePost (st : ServerState) (body : CreateBody) : Response × ServerState :=
  let alloc := getNextId st.counter
  let newContact : Contact :=
    { id := alloc.1
    , first_name := body.first_name
    , last_name := body.last_name
    , job := body.job
    , description := body.description }
  let store' := addContact st.store alloc.1 (.obj newContact)
  ( { statusCode := 201, message := "Contact successfully added", data := .obj newContact }
  , { store := store', counter := alloc.2 } )

/-- PATCH /contacts/:id (lines 240-252): fetch, 404 (no write) if `!contact`;
else spread the patch over the record and persist the merged record under
`updatedContact.id` (the id field of the MERGED record), answer 201. -/
def handlePatch (st : ServerState) (i : Nat) (info : Patch) : Response × ServerState :=
  match getContact st.store i with
  | some (.obj c) =>
      let updatedContact := mergeContact c info
      let store' := addContact st.store updatedContact.id (.obj updatedContact)
      ( { statusCode := 201, message := "Contact correctly updated", data := .obj updatedContact }
      , { st with store := store' } )
  | _ => (notFoundResp, st)

/-- DELETE /contacts/:id (lines 305-313): call `redis.deleteContact` first,
then 404 if the returned value is falsy, else 200 echoing the removed
value. -/
def handleDelete (st : ServerState) (i : Nat) : Response × ServerState :=
  let r := deleteContact st.store i
  match r.1 with
  | some v =>
      if v.truthy then
        ( { statusCode := 200, message := "Contact correctly deleted", data := .arrOne v }
        , { st with store := r.2 } )
      else (notFoundResp, { st with store := r.2 })
  | none => (notFoundResp, { st with store := r.2 })

end Taroko

namespace Taroko

/-! ## Store lemmas -/

/-- Looking up a key after an upsert: the upserted key maps to the new value,
every other key is unaffected. -/
theorem getContact_addContact (s : Store) (k i : Nat) (v : StoreVal) :
    getContact (addContact s k v) i = if k = i then some v else getContact s i := by
  induction s with
  | nil => by_cases h : k = i <;> simp [addContact, getContact, h]
  | cons hd tl ih =>
    obtain ⟨a, b⟩ := hd
    by_cases hak : a = k <;> by_cases hai : a = i <;> by_cases hki : k = i <;>
      simp_all [addContact, getContact]

/-- The value returned by the store removal is exactly the looked-up value. -/
theorem deleteContact_fst (s : Store) (i : Nat) :
    (deleteContact s i).1 = getContact s i := by
  induction s with
  | nil => simp [deleteContact, getContact]
  | cons hd tl ih =>
    obtain ⟨a, b⟩ := hd
    by_cases h : a = i <;> simp [deleteContact, getContact, h, ih]

/-- Removing an absent key is a no-op: it returns `none` and leaves the store
unchanged. -/
theorem deleteContact_absent (s : Store) (i : Nat) (h : getContact s i = none) :
    deleteContact s i = (none, s) := by
  induction s with
  | nil => simp [deleteContact]
  | cons hd tl ih =>
    obtain ⟨a, b⟩ := hd
    by_cases hai : a = i
    · simp [getContact, hai] at h
    · simp only [getContact, if_neg hai] at h
      simp [deleteContact, hai, ih h]

/-- A key not among the store's keys looks up to `none`. -/
theorem getContact_none_of_not_mem_keys (s : Store) (i : Nat)
    (h : i ∉ s.map Prod.fst) : getContact s i = none := by
  induction s with
  | nil => simp [getContact]
  | cons hd tl ih =>
    obtain ⟨a, b⟩ := hd
    simp only [List.map_cons, List.mem_cons, not_or] at h
    by_cases hai : a = i
    · exact absurd hai.symm h.1
    · simp [getContact, hai, ih h.2]

/-- With pairwise-distinct keys, a removed key is gone: looking it up after
the removal yields `none`. -/
theorem getContact_delete_self (s : Store) (i : Nat) (hnd : keysNodup s) :
    getContact (deleteContact s i).2 i = none := by
  induction s with
  | nil => simp [deleteContact, getContact]
  | cons hd tl ih =>
    obtain ⟨a, b⟩ := hd
    simp only [keysNodup, List.map_cons, List.nodup_cons] at hnd
    by_cases hai : a = i
    · subst hai
      simp only [deleteContact, if_pos rfl]
      exact getContact_none_of_not_mem_keys tl a hnd.1
    · simp only [deleteContact, if_neg hai, getContact]
      exact ih (by simpa [keysNodup] using hnd.2)

/-- A successful lookup exhibits a member of the store. -/
theorem getContact_mem (s : Store) (i : Nat) (v : StoreVal)
    (h : getContact s i = some v) : (i, v) ∈ s := by
  induction s with
  | nil => simp [getContact] at h
  | cons hd tl ih =>
    obtain ⟨a, b⟩ := hd
    by_cases hai : a = i <;> simp_all [getContact, List.mem_cons]

/-- Entries surviving a removal were entries of the original store. -/
theorem mem_deleteContact (s : Store) (i : Nat) (x : Nat × StoreVal)
    (h : x ∈ (deleteContact s i).2) : x ∈ s := by
  induction s with
  | nil => simp [deleteContact] at h
  | cons hd tl ih =>
    obtain ⟨a, b⟩ := hd
    by_cases hai : a = i
    · simp only [deleteContact, if_pos hai] at h
      exact List.mem_cons_of_mem _ h
    · simp only [deleteContact, if_neg hai] at h
      rcases List.mem_cons.mp h with rfl | h
      · exact List.mem_cons_self _ _
      · exact List.mem_cons_of_mem _ (ih h)

/-- Entries after an upsert are the upserted binding or entries of the
original store. -/
theorem mem_addContact (s : Store) (k : Nat) (v : StoreVal) (x : Nat × StoreVal)
    (h : x ∈ addContact s k v) : x = (k, v) ∨ x ∈ s := by
  induction s with
  | nil =>
    simp only [addContact, List.mem_singleton] at h
    exact .inl h
  | cons hd tl ih =>
    obtain ⟨a, b⟩ := hd
    by_cases hak : a = k
    · simp only [addContact, if_pos hak] at h
      rcases List.mem_cons.mp h with rfl | h
      · exact .inl rfl
      · exact .inr (List.mem_cons_of_mem _ h)
    · simp only [addContact, if_neg hak] at h
      rcases List.mem_cons.mp h with rfl | h
      · exact .inr (List.mem_cons_self _ _)
      · rcases ih h with h | h
        · exact .inl h
        · exact .inr (List.mem_cons_of_mem _ h)

/-- Upserting the value a key already holds leaves the store unchanged. -/
theorem addContact_self (s : Store) (i : Nat) (v : StoreVal)
    (h : getContact s i = some v) : addContact s i v = s := by
  induction s with
  | nil => simp [getContact] at h
  | cons hd tl ih =>
    obtain ⟨a, b⟩ := hd
    by_cases hai : a = i
    · subst hai
      simp [getContact] at h
      simp [addContact, h]
    · simp only [getContact, if_neg hai] at h
      simp [addContact, hai, ih h]

end Taroko

namespace Taroko

/-! ## Invariants and example data -/

/-- One store entry is well-formed when a contact object's id field equals
its key (an empty value is unconstrained). -/
def entryOk : Nat × StoreVal → Bool
  | (k, .obj c) => c.id == k
  | (_, .empty) => true

/-- Every contact record present in the store has an id field equal to the
store key it is stored under. -/
def storeInv (s : Store) : Prop := ∀ e ∈ s, entryOk e = true

instance : DecidablePred storeInv := fun s => List.decidableBAll _ s

/-- Every value present in the store is a (truthy) contact object — the shape
of every store the repository's own writes can produce. -/
def objOnly (s : Store) : Prop := ∀ e ∈ s, (e.2).truthy = true

instance : DecidablePred objOnly := fun s => List.decidableBAll _ s

/-- Upserting a contact object under its own id preserves the invariant. -/
theorem storeInv_addContact (s : Store) (c : Contact) (h : storeInv s) :
    storeInv (addContact s c.id (.obj c)) := by
  intro e he
  rcases mem_addContact _ _ _ _ he with rfl | he
  · simp [entryOk]
  · exact h e he

/-- Removal preserves the invariant. -/
theorem storeInv_deleteContact (s : Store) (i : Nat) (h : storeInv s) :
    storeInv (deleteContact s i).2 :=
  fun e he => h e (mem_deleteContact s i e he)

/-- Concrete contacts used as inputs of the closed theorems below. -/
def anakin : Contact :=
  { id := 1, first_name := some "Anakin", last_name := some "Skywalker"
  , job := some "Jedi Knight", description := some "The Chosen one" }

def boba : Contact :=
  { id := 2, first_name := some "Boba", last_name := some "Fett"
  , job := some "Bounty Hunter", description := some "Son of Jango Fett" }

def leia : Contact :=
  { id := 10, first_name := some "Leia", last_name := some "Organa"
  , job := none, description := none }

/-- A store holding contacts with ids 1, 2 and 10 (one id with more digits
than the others). -/
def storeThree : Store := [(1, .obj anakin), (2, .obj boba), (10, .obj leia)]

def stateThree : ServerState := { store := storeThree, counter := 10 }

/-- A patch that tries to overwrite the id. -/
def patchIdFive : Patch :=
  { id := some 5, first_name := some "Darth", last_name := none
  , job := none, description := none }

/-- A patch over the text fields only. -/
def patchDarth : Patch :=
  { id := none, first_name := some "Darth", last_name := none
  , job := none, description := none }

/-! ## Claim theorems -/

/-- C1: the claim says the GET /contacts listing is ordered by ascending
NUMERIC id, including when some ids have more digits than others.  The code
(`.map(parseInt).sort()`, line 39) sorts with the default comparator, which
compares the decimal string forms, so on the store with ids 1, 2 and 10 the
listing comes back in the order 1, 10, 2 — not the ascending numeric order
1, 2, 10.  This theorem evaluates the handler at that failing input. -/
theorem list_order_is_string_order_on_1_2_10 :
    handleList storeThree =
      { statusCode := 200
      , message := "Successfully retrieved the contacts list"
      , data := .arr [some (.obj anakin), some (.obj leia), some (.obj boba)] } ∧
    jsSort (getIds storeThree) = [1, 10, 2] ∧
    [anakin.id, leia.id, boba.id] = [1, 10, 2] := by
  refine ⟨rfl, rfl, rfl⟩

/-- C2 counterexample: on a store holding `anakin` under key 1, the patch
`patchIdFive` (which contains `id: 5`) makes PATCH /contacts/1 return and
persist a record whose id is 5, not 1 — the spread on line 248 lets the
patch overwrite the id, refuting the claim as stated. -/
theorem patch_alters_id_at_concrete_input :
    getContact stateThree.store 1 = some (.obj anakin) ∧
    anakin.id = 1 ∧
    (handlePatch stateThree 1 patchIdFive).1.data =
      RespData.obj (mergeContact anakin patchIdFive) ∧
    (mergeContact anakin patchIdFive).id = 5 ∧
    getContact (handlePatch stateThree 1 patchIdFive).2.store 5 =
      some (.obj (mergeContact anakin patchIdFive)) := by
  refine ⟨rfl, rfl, rfl, rfl, rfl⟩

/-- C2 (amended): for every existing record and every patch whose `id` field
is ABSENT, the record returned and persisted by the update has the same id
as the original record. -/
theorem patch_preserves_id (st : ServerState) (i : Nat) (c : Contact) (p : Patch)
    (hc : getContact st.store i = some (.obj c)) (hp : p.id = none) :
    (handlePatch st i p).1.data = RespData.obj (mergeContact c p) ∧
    (mergeContact c p).id = c.id ∧
    getContact (handlePatch st i p).2.store c.id =
      some (.obj (mergeContact c p)) := by
  have hid : (mergeContact c p).id = c.id := by simp [mergeContact, hp]
  refine ⟨by simp [handlePatch, hc], hid, ?_⟩
  simp [handlePatch, hc, getContact_addContact, hid]

/-- C2 witness: the amended theorem applied at the concrete store
`stateThree`, record `anakin`, id-less patch `patchDarth`. -/
theorem patch_preserves_id_witness :
    (mergeContact anakin patchDarth).id = anakin.id ∧
    getContact (handlePatch stateThree 1 patchDarth).2.store anakin.id =
      some (.obj (mergeContact anakin patchDarth)) :=
  ⟨(patch_preserves_id stateThree 1 anakin patchDarth rfl rfl).2.1,
   (patch_preserves_id stateThree 1 anakin patchDarth rfl rfl).2.2⟩

/-- C3: the key-matches-id invariant is preserved by every operation
(create, update, delete); in particular create persists the freshly built
record under its own id, and update persists the merged record under the
merged record's own id. -/
theorem store_invariant_preserved (st : ServerState) (h : storeInv st.store) :
    (∀ body : CreateBody, storeInv (handlePost st body).2.store) ∧
    (∀ i info, storeInv (handlePatch st i info).2.store) ∧
    (∀ i, storeInv (handleDelete st i).2.store) ∧
    (∀ body : CreateBody,
        getContact (handlePost st body).2.store (getNextId st.counter).1 =
          some (.obj { id := (getNextId st.counter).1
                     , first_name := body.first_name, last_name := body.last_name
                     , job := body.job, description := body.description })) ∧
    (∀ i info c, getContact st.store i = some (.obj c) →
        getContact (handlePatch st i info).2.store (mergeContact c info).id =
          some (.obj (mergeContact c info))) := by
  refine ⟨?_, ?_, ?_, ?_, ?_⟩
  · intro body
    exact storeInv_addContact st.store
      { id := (getNextId st.counter).1
      , first_name := body.first_name, last_name := body.last_name
      , job := body.job, description := body.description } h
  · intro i info
    cases hm : getContact st.store i with
    | none => simpa [handlePatch, hm] using h
    | some v =>
      cases v with
      | empty => simpa [handlePatch, hm] using h
      | obj c =>
        simp only [handlePatch, hm]
        exact storeInv_addContact st.store (mergeContact c info) h
  · intro i
    cases hm : (deleteContact st.store i).1 with
    | none => simpa [handleDelete, hm] using storeInv_deleteContact st.store i h
    | some v =>
      cases v with
      | empty => simpa [handleDelete, hm] using storeInv_deleteContact st.store i h
      | obj c =>
        simpa [handleDelete, hm, StoreVal.truthy] using storeInv_deleteContact st.store i h
  · intro body
    simp [handlePost, getContact_addContact]
  · intro i info c hm
    simp [handlePatch, hm, getContact_addContact]

/-- C3 witness: the invariant theorem applied at the concrete state
`stateThree`, extracting preservation by delete. -/
theorem store_invariant_preserved_witness :
    storeInv stateThree.store ∧
    ∀ i, storeInv (handleDelete stateThree i).2.store :=
  ⟨by decide, (store_invariant_preserved stateThree (by decide)).2.2.1⟩

end Taroko

namespace Taroko

/-- C4: on an id absent from the store, GET answers the 404 envelope with
empty data, PATCH answers it and returns the state untouched, and DELETE
answers it and returns the state untouched (removal of an absent key is a
no-op, so no write happens on any NotFound path). -/
theorem notfound_no_store_mutation (st : ServerState) (i : Nat)
    (h : getContact st.store i = none) :
    handleGet st.store i = notFoundResp ∧
    (∀ p : Patch, handlePatch st i p = (notFoundResp, st)) ∧
    handleDelete st i = (notFoundResp, st) := by
  refine ⟨by simp [handleGet, h], fun p => by simp [handlePatch, h], ?_⟩
  simp [handleDelete, deleteContact_absent st.store i h]

/-- C4 witness: id 3 is absent from `stateThree` (its keys are 1, 2, 10). -/
theorem notfound_no_store_mutation_witness :
    getContact stateThree.store 3 = none ∧
    handleDelete stateThree 3 = (notFoundResp, stateThree) :=
  ⟨by decide, (notfound_no_store_mutation stateThree 3 (by decide)).2.2⟩

/-- C5: updating an existing record merges field by field — every text field
absent from the patch keeps the record's value, every text field present in
the patch is replaced wholesale by the patch's value, the id is unchanged —
and the empty patch is a no-op: it answers 201 with the unchanged record and
leaves the state exactly as it was. -/
theorem patch_field_merge (st : ServerState) (i : Nat) (c : Contact) (p : Patch)
    (hc : getContact st.store i = some (.obj c)) (hid : c.id = i) (hp : p.id = none) :
    (handlePatch st i p).1.data = RespData.obj (mergeContact c p) ∧
    (p.first_name = none → (mergeContact c p).first_name = c.first_name) ∧
    (∀ v, p.first_name = some v → (mergeContact c p).first_name = some v) ∧
    (p.last_name = none → (mergeContact c p).last_name = c.last_name) ∧
    (∀ v, p.last_name = some v → (mergeContact c p).last_name = some v) ∧
    (p.job = none → (mergeContact c p).job = c.job) ∧
    (∀ v, p.job = some v → (mergeContact c p).job = some v) ∧
    (p.description = none → (mergeContact c p).description = c.description) ∧
    (∀ v, p.description = some v → (mergeContact c p).description = some v) ∧
    (mergeContact c p).id = c.id ∧
    (p = Patch.emptyPatch →
      handlePatch st i p =
        ({ statusCode := 201, message := "Contact correctly updated"
         , data := RespData.obj c }, st)) := by
  refine ⟨by simp [handlePatch, hc], ?_, ?_, ?_, ?_, ?_, ?_, ?_, ?_, ?_, ?_⟩
  · intro h; simp [mergeContact, h]
  · intro v h; simp [mergeContact, h]
  · intro h; simp [mergeContact, h]
  · intro v h; simp [mergeContact, h]
  · intro h; simp [mergeContact, h]
  · intro v h; simp [mergeContact, h]
  · intro h; simp [mergeContact, h]
  · intro v h; simp [mergeContact, h]
  · simp [mergeContact, hp]
  · rintro rfl
    have hmc : mergeContact c Patch.emptyPatch = c := rfl
    have hs : addContact st.store c.id (StoreVal.obj c) = st.store :=
      addContact_self st.store c.id (StoreVal.obj c) (by rw [hid]; exact hc)
    simp [handlePatch, hc, hmc, hs]

/-- C5 witness: the merge theorem applied at `stateThree`, record `anakin`,
key 1, with the empty patch — exhibiting the no-op clause. -/
theorem patch_field_merge_witness :
    handlePatch stateThree 1 Patch.emptyPatch =
      ({ statusCode := 201, message := "Contact correctly updated"
       , data := RespData.obj anakin }, stateThree) :=
  (patch_field_merge stateThree 1 anakin Patch.emptyPatch rfl rfl
    rfl).2.2.2.2.2.2.2.2.2.2 rfl

/-- C6: create followed immediately by get on the freshly assigned id
returns (with status 200) a record equal to the one create returned. -/
theorem create_then_get_roundtrip (st : ServerState) (body : CreateBody) :
    ∃ c : Contact, (handlePost st body).1.data = RespData.obj c ∧
      handleGet (handlePost st body).2.store c.id =
        { statusCode := 200, message := "Contact successfully retrieved"
        , data := RespData.obj c } := by
  refine ⟨_, rfl, ?_⟩
  simp [handleGet, handlePost, getContact_addContact, RespData.arrOne, StoreVal.truthy]

/-- C7: deleting an existing record removes its key (with unique keys, a
subsequent lookup is `none`), answers 200 echoing the record's last value,
and a subsequent GET answers the 404 envelope. -/
theorem delete_then_get_notfound (st : ServerState) (i : Nat) (c : Contact)
    (hnd : keysNodup st.store) (hc : getContact st.store i = some (.obj c)) :
    (handleDelete st i).1 =
      { statusCode := 200, message := "Contact correctly deleted"
      , data := RespData.obj c } ∧
    getContact (handleDelete st i).2.store i = none ∧
    handleGet (handleDelete st i).2.store i = notFoundResp := by
  have h1 : (deleteContact st.store i).1 = some (.obj c) := by
    rw [deleteContact_fst]; exact hc
  have h2 : getContact (deleteContact st.store i).2 i = none :=
    getContact_delete_self st.store i hnd
  have hs : (handleDelete st i).2.store = (deleteContact st.store i).2 := by
    simp [handleDelete, h1, StoreVal.truthy]
  refine ⟨by simp [handleDelete, h1, RespData.arrOne, StoreVal.truthy], ?_, ?_⟩
  · rw [hs]; exact h2
  · rw [hs]; simp [handleGet, h2]

/-- C7 witness: deleting id 2 (`boba`) from `stateThree`. -/
theorem delete_then_get_notfound_witness :
    keysNodup stateThree.store ∧
    handleGet (handleDelete stateThree 2).2.store 2 = notFoundResp :=
  ⟨by decide, (delete_then_get_notfound stateThree 2 boba (by decide) rfl).2.2⟩

end Taroko

namespace Taroko

/-- C8: the created record's id is exactly the value freshly returned by the
id allocation, the stored and returned record has exactly the five schema
fields taken verbatim from the body's four text fields (absent input fields
are stored absent), and the handler's output is unchanged by any
client-supplied `id` or extra fields in the body — they are never read. -/
theorem create_record_shape (st : ServerState) (body : CreateBody) :
    (handlePost st body).1.data = RespData.obj
      { id := (getNextId st.counter).1
      , first_name := body.first_name, last_name := body.last_name
      , job := body.job, description := body.description } ∧
    getContact (handlePost st body).2.store (getNextId st.counter).1 =
      some (.obj { id := (getNextId st.counter).1
                 , first_name := body.first_name, last_name := body.last_name
                 , job := body.job, description := body.description }) ∧
    ∀ (cid : Option Nat) (extra : List (String × String)),
      handlePost st { body with id := cid, extra := extra } = handlePost st body := by
  refine ⟨rfl, ?_, fun cid extra => rfl⟩
  simp [handlePost, getContact_addContact]

/-- C9 counterexample: a key that is present but holds an empty (falsy)
value is reported as NotFound by GET, PATCH and DELETE — the `!contact`
checks test truthiness, not key presence, refuting the boundary as the claim
states it. -/
def storeEmptyVal : Store := [(1, .empty)]

/-- C9 counterexample theorem (see `storeEmptyVal`): key 1 is present, yet
all three operations answer 404. -/
theorem notfound_on_present_empty_value :
    getContact storeEmptyVal 1 = some StoreVal.empty ∧
    handleGet storeEmptyVal 1 = notFoundResp ∧
    (handlePatch { store := storeEmptyVal, counter := 1 } 1 Patch.emptyPatch).1 =
      notFoundResp ∧
    (handleDelete { store := storeEmptyVal, counter := 1 } 1).1 = notFoundResp := by
  refine ⟨rfl, rfl, rfl, rfl⟩

/-- C9 (amended): on every store whose present values are all contact
objects — the only stores the repository's own writes produce — GET, PATCH
and DELETE report 404 exactly when the key is truly absent. -/
theorem notfound_iff_key_absent (st : ServerState) (i : Nat)
    (h : objOnly st.store) :
    ((handleGet st.store i).statusCode = 404 ↔ getContact st.store i = none) ∧
    (∀ p : Patch,
      ((handlePatch st i p).1.statusCode = 404 ↔ getContact st.store i = none)) ∧
    ((handleDelete st i).1.statusCode = 404 ↔ getContact st.store i = none) := by
  cases hm : getContact st.store i with
  | none =>
    have hd := deleteContact_absent st.store i hm
    exact ⟨by simp [handleGet, hm, notFoundResp],
           fun p => by simp [handlePatch, hm, notFoundResp],
           by simp [handleDelete, hd, notFoundResp]⟩
  | some v =>
    have hv : v.truthy = true := h _ (getContact_mem st.store i v hm)
    cases v with
    | empty => simp [StoreVal.truthy] at hv
    | obj c =>
      have h1 : (deleteContact st.store i).1 = some (.obj c) := by
        rw [deleteContact_fst]; exact hm
      refine ⟨?_, fun p => ?_, ?_⟩
      · simp [handleGet, hm, StoreVal.truthy]
      · simp [handlePatch, hm]
      · simp [handleDelete, h1, StoreVal.truthy]

/-- C9 witness: the amended equivalence applied at `stateThree` (all values
contact objects) and the present key 1. -/
theorem notfound_iff_key_absent_witness :
    objOnly stateThree.store ∧
    ((handleGet stateThree.store 1).statusCode = 404 ↔
      getContact stateThree.store 1 = none) :=
  ⟨by decide, (notfound_iff_key_absent stateThree 1 (by decide)).1⟩

/-- The ids returned by a sequence of `n` allocation calls starting from a
given persisted counter value, together with the final counter. -/
def allocSeq : Nat → Nat → List Nat
  | _, 0 => []
  | c, n + 1 =>
      let a := getNextId c
      a.1 :: allocSeq a.2 n

/-- C10: every sequence of allocation calls returns pairwise distinct ids:
the ids returned from counter `c` are exactly `c+1, …, c+n`, each returned id
exceeds every previously persisted counter value (so ids retired by delete
are never handed out again within a store lifetime), and the counter is
advanced to the returned value before it is returned. -/
theorem alloc_ids_pairwise_distinct (c n : Nat) :
    allocSeq c n = List.range' (c + 1) n ∧
    (allocSeq c n).Nodup ∧
    (∀ i ∈ allocSeq c n, c < i) ∧
    (getNextId c).2 = (getNextId c).1 := by
  have hr : ∀ m k, allocSeq k m = List.range' (k + 1) m := by
    intro m
    induction m with
    | zero => intro k; rfl
    | succ m ih => intro k; simp [allocSeq, getNextId, List.range', ih]
  refine ⟨hr n c, ?_, ?_, rfl⟩
  · rw [hr n c]; exact List.nodup_range' _ _
  · intro i hi
    rw [hr n c] at hi
    have := List.mem_range'_1.mp hi
    omega

end Taroko
